import Mathlib

/-!
Verification of the New Focus PM8742 picomotor driver (odemis/driver/nfpm.py).

The definitions below are shallow embeddings of the Python source:
machine bytes are `Nat` with explicit `% 256`, the signed 32-bit frame value
is `Int` with explicit two's-complement conversion, physical quantities and
simulator positions are `ℚ`, and code paths that raise an uncaught Python
exception (IndexError, KeyError, NameError, NotImplementedError,
ZeroDivisionError) return `none` / `.error`.
-/

namespace Nfpm

/-! ## Binary frame layer (PM8742Simulator._sendReply / _parseMessage)

A frame is a list of 9 bytes:
target(1) instruction(1) type(1) axis(1) value(4, big-endian signed) checksum(1).
-/

/-- Checksum as computed by `numpy.sum(msg[:-1], dtype=numpy.uint8)`:
the sum of the bytes modulo 256. -/
def byteSum (l : List ℕ) : ℕ := l.sum % 256

/-- Big-endian two's-complement encoding of a signed 32-bit value, as done by
`struct.pack_into('>BBBBiB', ...)` for the `i` field. -/
def encodeInt32 (v : ℤ) : List ℕ :=
  let u : ℕ := (v % (2 ^ 32)).toNat
  [u / 2 ^ 24 % 256, u / 2 ^ 16 % 256, u / 2 ^ 8 % 256, u % 256]

/-- Big-endian two's-complement decoding of a signed 32-bit value, as done by
`struct.unpack('>BBBBiB', msg)` for the `i` field (bytes 4..7 of a frame). -/
def decodeInt32 (b : List ℕ) : ℤ :=
  let u : ℕ := b.getD 0 0 * 2 ^ 24 + b.getD 1 0 * 2 ^ 16 + b.getD 2 0 * 2 ^ 8 + b.getD 3 0
  if u < 2 ^ 31 then (u : ℤ) else (u : ℤ) - 2 ^ 32

/-- Bytes produced by `PM8742Simulator._sendReply(inst, status, val)`:
`struct.pack_into('>BBBBiB', msg, 0, 2, self._id, status, inst, val, 0)`
followed by overwriting the last byte with the checksum of the first 8. -/
def sendReplyBytes (id status inst : ℕ) (v : ℤ) : List ℕ :=
  [2, id, status, inst] ++ encodeInt32 v ++
    [byteSum ([2, id, status, inst] ++ encodeInt32 v)]

/-- Flip bit `k` of byte `b` (the byte-level corruption considered by the spec's
checksum property): clears the bit when set, sets it when clear. -/
def flipBit (b k : ℕ) : ℕ :=
  if Nat.testBit b k then b - 2 ^ k else b + 2 ^ k

/-- Flip bit `k` of byte number `i` of a frame. -/
def flipFrame (f : List ℕ) (i k : ℕ) : List ℕ :=
  f.set i (flipBit (f.getD i 0) k)

/-- Well-checksummed frame with the given field bytes: the 8 payload bytes
(reduced mod 256, as any byte read from the wire is) followed by their
checksum. -/
def mkFrame (target inst typ mot v0 v1 v2 v3 : ℕ) : List ℕ :=
  [target % 256, inst % 256, typ % 256, mot % 256,
   v0 % 256, v1 % 256, v2 % 256, v3 % 256,
   byteSum [target % 256, inst % 256, typ % 256, mot % 256,
            v0 % 256, v1 % 256, v2 % 256, v3 % 256]]

theorem encodeInt32_length (v : ℤ) : (encodeInt32 v).length = 4 := rfl

theorem sendReplyBytes_length (id status inst : ℕ) (v : ℤ) :
    (sendReplyBytes id status inst v).length = 9 := by
  simp [sendReplyBytes, encodeInt32]

/-- Decoding inverts encoding on the signed 32-bit range. -/
theorem decodeInt32_encodeInt32 (v : ℤ) (h1 : -(2 ^ 31) ≤ v) (h2 : v < 2 ^ 31) :
    decodeInt32 (encodeInt32 v) = v := by
  have hmod : v % (2 ^ 32) = if 0 ≤ v then v else v + 2 ^ 32 := by
    split
    · omega
    · omega
  unfold encodeInt32 decodeInt32
  by_cases hv : 0 ≤ v
  · rw [hmod, if_pos hv]
    have hu : (v.toNat : ℤ) = v := Int.toNat_of_nonneg hv
    set u : ℕ := v.toNat with hudef
    have hub : u < 2 ^ 31 := by omega
    simp only [List.getD, List.get?, Option.getD_some]
    have hre : u / 2 ^ 24 % 256 * 2 ^ 24 + u / 2 ^ 16 % 256 * 2 ^ 16 +
        u / 2 ^ 8 % 256 * 2 ^ 8 + u % 256 = u := by omega
    rw [hre, if_pos (by omega)]
    exact hu
  · rw [hmod, if_neg hv]
    have hge : (0 : ℤ) ≤ v + 2 ^ 32 := by omega
    set u : ℕ := (v + 2 ^ 32).toNat with hudef
    have hu : (u : ℤ) = v + 2 ^ 32 := Int.toNat_of_nonneg hge
    have hub : 2 ^ 31 ≤ u ∧ u < 2 ^ 32 := by omega
    simp only [List.getD, List.get?, Option.getD_some]
    have hre : u / 2 ^ 24 % 256 * 2 ^ 24 + u / 2 ^ 16 % 256 * 2 ^ 16 +
        u / 2 ^ 8 % 256 * 2 ^ 8 + u % 256 = u := by omega
    rw [hre, if_neg (by omega)]
    omega

/-! ## Simulator state (PM8742Simulator) -/

/-- Reply emitted by the simulator, i.e. the arguments of the
`self._sendReply(inst, status=…, val=…)` call made while parsing a message.
The value is a rational because `_getCurrentPos` returns an interpolated
(non-integer) position that the code passes straight to `_sendReply`. -/
structure Reply where
  inst : ℕ
  status : ℕ
  val : ℚ
deriving DecidableEq

/-- State of `PM8742Simulator`: its id, axis count, per-axis parameter
dictionaries (association lists: parameter number → value) and the
(start-time, end-time, start-position) triple of each axis's current move. -/
structure SimState where
  id : ℕ
  naxes : ℕ
  astates : List (List (ℕ × ℚ))
  axisMove : List (ℚ × ℚ × ℚ)
deriving DecidableEq

/-- Dictionary update on an association list: replace the value of an existing
key, else append the binding (Python `d[k] = v`). -/
def asetv (d : List (ℕ × ℚ)) (k : ℕ) (v : ℚ) : List (ℕ × ℚ) :=
  if (d.lookup k).isSome then
    d.map fun p => if p.1 = k then (k, v) else p
  else d ++ [(k, v)]

/-- Initial per-axis parameter dictionary `orig_axis_state` of the simulator:
target position 0, current position 0, maximum speed 1024, target reached 1,
pulse divisor 3. -/
def origAxisState : List (ℕ × ℚ) := [(0, 0), (1, 0), (4, 1024), (8, 1), (154, 3)]

/-- Initial simulator state built by `PM8742Simulator.__init__`: id 1, 4 axes,
all moves idle. -/
def initSim : SimState :=
  { id := 1, naxes := 4,
    astates := [origAxisState, origAxisState, origAxisState, origAxisState],
    axisMove := [(0, 0, 0), (0, 0, 0), (0, 0, 0), (0, 0, 0)] }

/-- Embedding of `PM8742Simulator._getCurrentPos` at wall-clock time `now`:
if the move interval has elapsed return the stored target (parameter 0),
otherwise linearly interpolate. `none` models an uncaught IndexError/KeyError
for an axis the simulator holds no state for. -/
def getCurrentPos (s : SimState) (axis : ℕ) (now : ℚ) : Option ℚ :=
  match s.axisMove.get? axis with
  | none => none
  | some (startt, endt, startp) =>
    match s.astates.get? axis with
    | none => none
    | some d =>
      match d.lookup 0 with
      | none => none
      | some endp =>
        if endt < now then some endp
        else some (startp + (endp - startp) * (now - startt) / (endt - startt))

/-- Power of two with a rational exponent as stored in the parameter dict.
Reachable simulator states only ever store integers in parameter 154, for
which this agrees with Python's `2 ** pulse_div`. -/
def ratPow2 (q : ℚ) : ℚ :=
  if 0 ≤ q.num then (2 : ℚ) ^ q.num.toNat else ((2 : ℚ) ^ (-q.num).toNat)⁻¹

/-- Embedding of `PM8742Simulator._getMaxSpeed`:
`(16e6 * velocity) / (2 ** pulse_div * 2048 * 32)` in µsteps/s. -/
def getMaxSpeed (s : SimState) (axis : ℕ) : Option ℚ :=
  match s.astates.get? axis with
  | none => none
  | some d =>
    match d.lookup 4, d.lookup 154 with
    | some velocity, some pd => some (16000000 * velocity / (ratPow2 pd * 2048 * 32))
    | _, _ => none

/-- Post-checksum instruction dispatch of `PM8742Simulator._parseMessage`:
everything after the `chk != good_chk` test, acting on the decoded fields.
`none` models an uncaught Python exception (IndexError for an axis index
outside the state lists, NotImplementedError for coordinate moves / string
firmware query / RTP events, ZeroDivisionError for a zero max speed). -/
def parseBody (s : SimState) (now : ℚ) (inst typ mot : ℕ) (val : ℤ) :
    Option (SimState × Reply) :=
  if inst = 3 then -- Motor stop
    if ¬ mot ≤ s.naxes then some (s, ⟨inst, 4, 0⟩)
    else if mot < s.axisMove.length then
      some ({ s with axisMove := s.axisMove.set mot (0, 0, 0) }, ⟨inst, 100, 0⟩)
    else none
  else if inst = 4 then -- Move to position
    if ¬ mot ≤ s.naxes then some (s, ⟨inst, 4, 0⟩)
    else if ¬ (typ = 0 ∨ typ = 1 ∨ typ = 2) then some (s, ⟨inst, 3, 0⟩)
    else
      match getCurrentPos s mot now with
      | none => none
      | some pos =>
        if typ = 2 then none
        else
          let aval : ℚ := if typ = 1 then (val : ℚ) + pos else (val : ℚ)
          match getMaxSpeed s mot with
          | none => none
          | some sp =>
            if sp = 0 then none
            else
              let endt := now + |pos - aval| / sp
              match s.astates.get? mot with
              | none => none
              | some d =>
                some ({ s with astates := s.astates.set mot (asetv d 0 aval),
                               axisMove := s.axisMove.set mot (now, endt, pos) },
                      ⟨inst, 100, aval⟩)
  else if inst = 5 then -- Set axis parameter
    if ¬ mot ≤ s.naxes then some (s, ⟨inst, 4, 0⟩)
    else if ¬ typ ≤ 255 then some (s, ⟨inst, 3, 0⟩)
    else
      match s.astates.get? mot with
      | none => none
      | some d =>
        let key := if typ = 1 then 0 else typ
        some ({ s with astates := s.astates.set mot (asetv d key (val : ℚ)) },
              ⟨inst, 100, (val : ℚ)⟩)
  else if inst = 6 then -- Get axis parameter
    if ¬ mot ≤ s.naxes then some (s, ⟨inst, 4, 0⟩)
    else if ¬ typ ≤ 255 then some (s, ⟨inst, 3, 0⟩)
    else
      let rval? : Option ℚ :=
        if typ = 1 then getCurrentPos s mot now
        else if typ = 8 then
          (s.axisMove.get? mot).map fun m => if now < m.2.1 then 0 else 1
        else
          (s.astates.get? mot).map fun d => (d.lookup typ).getD 0
      match rval? with
      | none => none
      | some rval => some (s, ⟨inst, 100, rval⟩)
  else if inst = 15 then -- Get IO
    if ¬ mot ≤ 2 then some (s, ⟨inst, 4, 0⟩)
    else if ¬ typ ≤ 7 then some (s, ⟨inst, 3, 0⟩)
    else some (s, ⟨inst, 100, if mot = 0 then 0 else if mot = 1 then 178 else 0⟩)
  else if inst = 136 then -- Get firmware version
    if typ = 0 then none
    else if typ = 1 then some (s, ⟨inst, 100, 0x0c260102⟩)
    else some (s, ⟨inst, 3, 0⟩)
  else if inst = 138 then none -- Request Target Position Reached Event
  else some (s, ⟨inst, 2, 0⟩) -- unsupported instruction

/-- Embedding of `PM8742Simulator._parseMessage` on one message:
unpack the fields with `struct.unpack('>BBBBiB', msg)` (which raises unless the
message is exactly 9 bytes, hence `none` in every other case), answer a
status-1 reply on checksum mismatch, log (only) on a target-id mismatch, then
dispatch on the instruction. The target byte `b0` is never used past the
checksum. -/
def parseMessage (s : SimState) (now : ℚ) (msg : List ℕ) : Option (SimState × Reply) :=
  match msg with
  | [b0, b1, b2, b3, b4, b5, b6, b7, b8] =>
    if b8 ≠ byteSum [b0, b1, b2, b3, b4, b5, b6, b7] then some (s, ⟨b1, 1, 0⟩)
    else parseBody s now b1 b2 b3 (decodeInt32 [b4, b5, b6, b7])
  | _ => none

/-! ## Auxiliary lemmas about bytes and frames -/

theorem list_eq_nine {f : List ℕ} (h : f.length = 9) :
    ∃ a0 a1 a2 a3 a4 a5 a6 a7 a8 : ℕ, f = [a0, a1, a2, a3, a4, a5, a6, a7, a8] := by
  obtain _ | ⟨a0, f⟩ := f
  · exact absurd h (by simp)
  obtain _ | ⟨a1, f⟩ := f
  · exact absurd h (by simp)
  obtain _ | ⟨a2, f⟩ := f
  · exact absurd h (by simp)
  obtain _ | ⟨a3, f⟩ := f
  · exact absurd h (by simp)
  obtain _ | ⟨a4, f⟩ := f
  · exact absurd h (by simp)
  obtain _ | ⟨a5, f⟩ := f
  · exact absurd h (by simp)
  obtain _ | ⟨a6, f⟩ := f
  · exact absurd h (by simp)
  obtain _ | ⟨a7, f⟩ := f
  · exact absurd h (by simp)
  obtain _ | ⟨a8, f⟩ := f
  · exact absurd h (by simp)
  obtain _ | ⟨a9, f⟩ := f
  · exact ⟨a0, a1, a2, a3, a4, a5, a6, a7, a8, rfl⟩
  · refine absurd h ?_
    simp only [List.length_cons]
    omega

theorem testBit_ge {x k : ℕ} (h : Nat.testBit x k = true) : 2 ^ k ≤ x := by
  by_contra hlt
  push_neg at hlt
  rw [Nat.testBit_to_div_mod, Nat.div_eq_of_lt hlt] at h
  simp at h

theorem two_pow_lt_256 {k : ℕ} (hk : k < 8) : 2 ^ k < 256 := by
  calc 2 ^ k ≤ 2 ^ 7 := Nat.pow_le_pow_right (by norm_num) (by omega)
  _ < 256 := by norm_num

/-- Flipping a bit either adds or removes its weight. -/
theorem flipBit_or (b k : ℕ) :
    flipBit b k = b + 2 ^ k ∨ flipBit b k + 2 ^ k = b := by
  unfold flipBit
  split
  · right
    have := testBit_ge (by assumption)
    omega
  · left
    rfl

theorem decodeInt32_front (x0 x1 x2 x3 : ℕ) (rest : List ℕ) :
    decodeInt32 (x0 :: x1 :: x2 :: x3 :: rest) = decodeInt32 [x0, x1, x2, x3] := rfl

/-- A message whose last byte disagrees with the checksum of the first eight is
answered with the canned status-1 reply. -/
theorem parseMessage_badChk (s : SimState) (now : ℚ) (b0 b1 b2 b3 b4 b5 b6 b7 b8 : ℕ)
    (h : b8 ≠ byteSum [b0, b1, b2, b3, b4, b5, b6, b7]) :
    parseMessage s now [b0, b1, b2, b3, b4, b5, b6, b7, b8] = some (s, ⟨b1, 1, 0⟩) := by
  show (if b8 ≠ byteSum [b0, b1, b2, b3, b4, b5, b6, b7] then
      some (s, (⟨b1, 1, 0⟩ : Reply))
    else parseBody s now b1 b2 b3 (decodeInt32 [b4, b5, b6, b7])) = some (s, ⟨b1, 1, 0⟩)
  rw [if_pos h]

/-- A well-checksummed message goes through to the instruction dispatch. -/
theorem parseMessage_goodChk (s : SimState) (now : ℚ) (b0 b1 b2 b3 b4 b5 b6 b7 b8 : ℕ)
    (h : b8 = byteSum [b0, b1, b2, b3, b4, b5, b6, b7]) :
    parseMessage s now [b0, b1, b2, b3, b4, b5, b6, b7, b8] =
      parseBody s now b1 b2 b3 (decodeInt32 [b4, b5, b6, b7]) := by
  show (if b8 ≠ byteSum [b0, b1, b2, b3, b4, b5, b6, b7] then
      some (s, (⟨b1, 1, 0⟩ : Reply))
    else parseBody s now b1 b2 b3 (decodeInt32 [b4, b5, b6, b7])) = _
  rw [if_neg (by simp [h])]

/-- Frames built by `mkFrame` always pass the checksum test. -/
theorem parseMessage_mkFrame (s : SimState) (now : ℚ) (t i ty m v0 v1 v2 v3 : ℕ) :
    parseMessage s now (mkFrame t i ty m v0 v1 v2 v3) =
      parseBody s now (i % 256) (ty % 256) (m % 256)
        (decodeInt32 [v0 % 256, v1 % 256, v2 % 256, v3 % 256]) := by
  show (if byteSum [t % 256, i % 256, ty % 256, m % 256,
        v0 % 256, v1 % 256, v2 % 256, v3 % 256] ≠
      byteSum [t % 256, i % 256, ty % 256, m % 256,
        v0 % 256, v1 % 256, v2 % 256, v3 % 256] then
      some (s, (⟨i % 256, 1, 0⟩ : Reply))
    else parseBody s now (i % 256) (ty % 256) (m % 256)
      (decodeInt32 [v0 % 256, v1 % 256, v2 % 256, v3 % 256])) = _
  rw [if_neg (by simp)]

/-! ## Claim theorems about the binary protocol -/

/-- C4: every frame built by the simulator's `_sendReply` carries as last byte
the sum of the preceding 8 bytes modulo 256, decoding it (as `_parseMessage`
does) reproduces the encoded fields (target 2, controller id, status,
instruction, signed value), and flipping any single bit of any well-checksummed
9-byte inbound frame makes the simulator answer the checksum-error reply
(status 1) with its state unchanged instead of processing the frame. -/
theorem frame_checksum_roundtrip_bitflip :
    (∀ (id status inst : ℕ) (v : ℤ), -(2 ^ 31) ≤ v → v < 2 ^ 31 →
      (sendReplyBytes id status inst v).length = 9 ∧
      (sendReplyBytes id status inst v).getD 8 0 =
        byteSum ((sendReplyBytes id status inst v).take 8) ∧
      (sendReplyBytes id status inst v).getD 0 0 = 2 ∧
      (sendReplyBytes id status inst v).getD 1 0 = id ∧
      (sendReplyBytes id status inst v).getD 2 0 = status ∧
      (sendReplyBytes id status inst v).getD 3 0 = inst ∧
      decodeInt32 ((sendReplyBytes id status inst v).drop 4) = v) ∧
    (∀ (s : SimState) (now : ℚ) (f : List ℕ) (i k : ℕ),
      f.length = 9 → (∀ b ∈ f, b < 256) → f.getD 8 0 = byteSum (f.take 8) →
      i < 9 → k < 8 →
      parseMessage s now (flipFrame f i k) =
        some (s, ⟨(flipFrame f i k).getD 1 0, 1, 0⟩)) := by
  constructor
  · intro id status inst v h1 h2
    refine ⟨?_, ?_, ?_, ?_, ?_, ?_, ?_⟩ <;>
      simp only [sendReplyBytes, encodeInt32, List.cons_append, List.nil_append,
        List.getD, List.get?, Option.getD_some, List.length_cons, List.length_nil,
        List.take, List.drop, List.append_eq, List.append_nil]
    rw [decodeInt32_front]
    exact decodeInt32_encodeInt32 v h1 h2
  · intro s now f i k hlen hb hchk hi hk
    obtain ⟨a0, a1, a2, a3, a4, a5, a6, a7, a8, rfl⟩ := list_eq_nine hlen
    simp only [byteSum, List.take, List.sum_cons, List.sum_nil, List.getD, List.get?,
      Option.getD_some] at hchk
    have hd1 : 0 < 2 ^ k := Nat.two_pow_pos k
    have hd2 : 2 ^ k < 256 := two_pow_lt_256 hk
    have hf0 := flipBit_or a0 k
    have hf1 := flipBit_or a1 k
    have hf2 := flipBit_or a2 k
    have hf3 := flipBit_or a3 k
    have hf4 := flipBit_or a4 k
    have hf5 := flipBit_or a5 k
    have hf6 := flipBit_or a6 k
    have hf7 := flipBit_or a7 k
    have hf8 := flipBit_or a8 k
    interval_cases i <;>
      (simp only [flipFrame, List.set, List.getD, List.get?, Option.getD_some]
       apply parseMessage_badChk
       simp only [byteSum, List.sum_cons, List.sum_nil]
       omega)

theorem frame_checksum_roundtrip_bitflip_witness :
    decodeInt32 ((sendReplyBytes 1 100 6 (-5)).drop 4) = -5 ∧
    parseMessage initSim 0 (flipFrame [1, 3, 0, 2, 0, 0, 0, 1, 7] 0 0) =
      some (initSim, ⟨(flipFrame [1, 3, 0, 2, 0, 0, 0, 1, 7] 0 0).getD 1 0, 1, 0⟩) :=
  ⟨(frame_checksum_roundtrip_bitflip.1 1 100 6 (-5) (by decide)
      (by decide)).2.2.2.2.2.2,
   frame_checksum_roundtrip_bitflip.2 initSim 0 [1, 3, 0, 2, 0, 0, 0, 1, 7] 0 0
     (by decide) (by decide) (by decide) (by decide) (by decide)⟩

/-- C5 (code bug): the simulator's axis guard is `0 <= mot <= self._naxes` with
`naxes = 4`, but it only holds state for axes 0..3; a well-checksummed stop
frame for axis 4 therefore passes the guard and crashes with IndexError on
`self._axis_move[4]` (modelled `none`) instead of producing the claimed
invalid-value (status 4) reply, while axis 5 is rejected with status 4 and an
unchanged state as the claim describes. -/
theorem sim_stop_axis4_crashes :
    parseMessage initSim 0 [1, 3, 0, 4, 0, 0, 0, 0, 8] = none ∧
    parseMessage initSim 0 [1, 4, 0, 4, 0, 0, 0, 0, 9] = none ∧
    parseMessage initSim 0 [1, 5, 0, 4, 0, 0, 0, 0, 10] = none ∧
    parseMessage initSim 0 [1, 6, 0, 4, 0, 0, 0, 0, 11] = none ∧
    parseMessage initSim 0 [1, 3, 0, 5, 0, 0, 0, 0, 9] = some (initSim, ⟨3, 4, 0⟩) ∧
    parseMessage initSim 0 [1, 5, 0, 5, 0, 0, 0, 0, 11] = some (initSim, ⟨5, 4, 0⟩) := by
  decide

/-- C7: a well-checksummed inbound frame is processed identically whatever its
target-id byte: replacing the target id of any well-checksummed frame by an
arbitrary value (checksum adjusted accordingly) yields exactly the same reply
and state change. -/
theorem sim_ignores_target_id (s : SimState) (now : ℚ) (f : List ℕ) (t : ℕ)
    (hlen : f.length = 9) (hb : ∀ b ∈ f, b < 256)
    (hchk : f.getD 8 0 = byteSum (f.take 8)) :
    parseMessage s now f =
      parseMessage s now (mkFrame t (f.getD 1 0) (f.getD 2 0) (f.getD 3 0)
        (f.getD 4 0) (f.getD 5 0) (f.getD 6 0) (f.getD 7 0)) := by
  obtain ⟨a0, a1, a2, a3, a4, a5, a6, a7, a8, rfl⟩ := list_eq_nine hlen
  simp only [List.mem_cons, List.not_mem_nil, or_false, forall_eq_or_imp] at hb
  obtain ⟨h0, h1, h2, h3, h4, h5, h6, h7, h8⟩ := hb
  simp only [List.getD, List.get?, Option.getD_some] at hchk ⊢
  rw [parseMessage_mkFrame, parseMessage_goodChk s now a0 a1 a2 a3 a4 a5 a6 a7 a8
      (by simpa [byteSum] using hchk)]
  rw [Nat.mod_eq_of_lt h1, Nat.mod_eq_of_lt h2, Nat.mod_eq_of_lt h3,
    Nat.mod_eq_of_lt h4, Nat.mod_eq_of_lt h5, Nat.mod_eq_of_lt h6, Nat.mod_eq_of_lt h7]

theorem sim_ignores_target_id_witness :
    parseMessage initSim 0 [9, 6, 0, 2, 0, 0, 0, 5, 22] =
      parseMessage initSim 0 (mkFrame 77
        ([9, 6, 0, 2, 0, 0, 0, 5, 22].getD 1 0) ([9, 6, 0, 2, 0, 0, 0, 5, 22].getD 2 0)
        ([9, 6, 0, 2, 0, 0, 0, 5, 22].getD 3 0) ([9, 6, 0, 2, 0, 0, 0, 5, 22].getD 4 0)
        ([9, 6, 0, 2, 0, 0, 0, 5, 22].getD 5 0) ([9, 6, 0, 2, 0, 0, 0, 5, 22].getD 6 0)
        ([9, 6, 0, 2, 0, 0, 0, 5, 22].getD 7 0)) :=
  sim_ignores_target_id initSim 0 [9, 6, 0, 2, 0, 0, 0, 5, 22] 77
    (by decide) (by decide) (by decide)

/-- C10: processing a well-checksummed stop frame clears the axis's move
interval to `(0, 0, 0)` but leaves the parameter dictionaries — in particular
the stored target (parameter 0) — untouched, so every later `_getCurrentPos`
query (at any positive time) returns the stored full move target rather than
an interpolated position. -/
theorem sim_stop_jumps_to_target (s : SimState) (now nowq : ℚ) (t mot : ℕ) (tgt : ℚ)
    (d : List (ℕ × ℚ))
    (hm256 : mot < 256) (hmn : mot ≤ s.naxes) (hml : mot < s.axisMove.length)
    (hd : s.astates.get? mot = some d) (htgt : d.lookup 0 = some tgt)
    (hnow : 0 < nowq) :
    parseMessage s now (mkFrame t 3 0 mot 0 0 0 0) =
      some ({ s with axisMove := s.axisMove.set mot (0, 0, 0) }, ⟨3, 100, 0⟩) ∧
    ({ s with axisMove := s.axisMove.set mot (0, 0, 0) } : SimState).astates = s.astates ∧
    getCurrentPos { s with axisMove := s.axisMove.set mot (0, 0, 0) } mot nowq = some tgt := by
  refine ⟨?_, rfl, ?_⟩
  · rw [parseMessage_mkFrame, Nat.mod_eq_of_lt hm256]
    unfold parseBody
    simp [hmn, hml]
  · unfold getCurrentPos
    rw [List.get?_set_eq_of_lt _ hml]
    simp only [hd, htgt]
    rw [if_pos hnow]

theorem sim_stop_jumps_to_target_witness :
    parseMessage ⟨1, 4, [[(0, 50)], [], [], []],
        [(0, 10, 0), (0, 0, 0), (0, 0, 0), (0, 0, 0)]⟩ 2 (mkFrame 1 3 0 0 0 0 0 0) =
      some (⟨1, 4, [[(0, 50)], [], [], []],
        [(0, 0, 0), (0, 0, 0), (0, 0, 0), (0, 0, 0)]⟩, ⟨3, 100, 0⟩) ∧
    ([[(0, 50)], [], [], []] : List (List (ℕ × ℚ))) = [[(0, 50)], [], [], []] ∧
    getCurrentPos ⟨1, 4, [[(0, 50)], [], [], []],
        [(0, 0, 0), (0, 0, 0), (0, 0, 0), (0, 0, 0)]⟩ 0 5 = some 50 :=
  sim_stop_jumps_to_target ⟨1, 4, [[(0, 50)], [], [], []],
      [(0, 10, 0), (0, 0, 0), (0, 0, 0), (0, 0, 0)]⟩ 2 5 1 0 50 [(0, 50)]
    (by decide) (by decide) (by decide) (by decide) (by decide) (by decide)

/-! ## Driver layer (PM8742): construction, connection, move submission -/

/-- Result of `PM8742._openConnection` for a given address string.
`autoipScan` stands for the network-discovery branch (external subprocess, out
of scope); `nameError` models the uncaught Python `NameError`: in the branch
for an address containing a colon the code evaluates `port.split(":")` where
the local variable `port` is not yet bound (instead of `address.split(":")`). -/
inductive ConnResult
  | accesser (host : String) (port : ℕ)
  | autoipScan
  | nameError
deriving DecidableEq

/-- Embedding of `PM8742._openConnection` (minus the `autoip` scan): `"fake"`
maps to host `"fake"` port 23, an address containing `":"` hits the unbound
`port` local and raises NameError, anything else connects to port 23. -/
def openConnection (address : String) : ConnResult :=
  if address = "fake" then .accesser "fake" 23
  else if address = "autoip" then .autoipScan
  else if address.data.contains ':' then .nameError
  else .accesser address 23

/-- Transport chosen by `IPAccesser.__init__`: the host `"fake"` is backed by a
`PM8742Simulator`, any other host by a real socket to (host, port). -/
inductive Backend
  | simulator
  | network (host : String) (port : ℕ)
deriving DecidableEq

/-- Embedding of the branch in `IPAccesser.__init__` choosing the backend. -/
def ipAccesserBackend (host : String) (port : ℕ) : Backend :=
  if host = "fake" then .simulator else .network host port

/-- Outcome of `moveRel` / `moveAbs`: either the already-completed no-op
`InstantaneousFuture`, or a `CancellableFuture` submitted to the executor
with the work it will perform. -/
inductive MoveOutcome
  | instantaneous
  | submitted (work : List (String × ℚ))
deriving DecidableEq

/-- Modelled from the spec: `model.Actuator._applyInversionRel` is not part of
the sources; per the driver docstring it negates the value of each axis listed
in `inverted`. -/
def applyInversionRel (inverted : List String) (shift : List (String × ℚ)) :
    List (String × ℚ) :=
  shift.map fun p => if p.1 ∈ inverted then (p.1, -p.2) else p

/-- Modelled from the spec: `model.Actuator._checkMoveRel` is not part of the
sources; per the spec it validates that every requested axis name exists. -/
def checkMoveRel (nameToAxis : List (String × ℕ)) (shift : List (String × ℚ)) :
    Except String Unit :=
  if shift.all fun p => ((nameToAxis.lookup p.1).isSome : Bool) then .ok ()
  else .error "unknown axis"

/-- The drop loop of `PM8742.moveRel`: delete every entry whose magnitude is
strictly below the axis's step size. `none` models an uncaught KeyError /
IndexError when an axis name does not resolve (unreachable after
`_checkMoveRel`); Python's negative-index wrap-around is not modelled because
`_name_to_axis` only holds indices ≥ 1. -/
def dropSmall (stepsize : List ℚ) (nameToAxis : List (String × ℕ))
    (shift : List (String × ℚ)) : Option (List (String × ℚ)) :=
  match shift with
  | [] => some []
  | (an, v) :: rest =>
    match nameToAxis.lookup an with
    | none => none
    | some aid =>
      match stepsize.get? (aid - 1) with
      | none => none
      | some ss =>
        match dropSmall stepsize nameToAxis rest with
        | none => none
        | some r => some (if |v| < ss then r else (an, v) :: r)

/-- Embedding of `PM8742.moveRel`: validate, apply inversion, drop the
too-small deltas, and either return an `InstantaneousFuture` (nothing left)
or submit the remaining shift to the executor. -/
def moveRel (stepsize : List ℚ) (nameToAxis : List (String × ℕ))
    (inverted : List String) (shift : List (String × ℚ)) : Except String MoveOutcome :=
  match checkMoveRel nameToAxis shift with
  | .error e => .error e
  | .ok () =>
    let shift2 := applyInversionRel inverted shift
    match dropSmall stepsize nameToAxis shift2 with
    | none => .error "KeyError"
    | some kept =>
      if kept.isEmpty then .ok .instantaneous
      else .ok (.submitted kept)

/-- Embedding of `PM8742.moveAbs`: an empty target map short-circuits to an
`InstantaneousFuture` before `_checkMoveAbs` runs; the validation and
inversion (both living in `model.Actuator`, outside the sources) are taken as
parameters. -/
def moveAbs (check : List (String × ℚ) → Except String Unit)
    (inv : List (String × ℚ) → List (String × ℚ))
    (pos : List (String × ℚ)) : Except String MoveOutcome :=
  if pos.isEmpty then .ok .instantaneous
  else
    match check pos with
    | .error e => .error e
    | .ok () => .ok (.submitted (inv pos))

/-- Step recorded during `PM8742.__init__`: opening the device connection is
the first device communication. -/
inductive InitAction
  | openConn
deriving DecidableEq

/-- Controller handle produced by a successful construction. -/
structure Handle where
  nameToAxis : List (String × ℕ)
  stepsize : List ℚ
deriving DecidableEq

/-- Embedding of the argument-validation prefix of `PM8742.__init__` (up to
`self._openConnection`): the axis-count guard, the axis-count/step-size-count
guard, the name → axis-number map (`""` entries skipped), and the step-size
sanity check `sz > 10e-3`. The returned action list records whether the
device connection was opened. -/
def PM8742init (axes : List String) (stepsize : List ℚ) :
    List InitAction × Except String Handle :=
  if ¬ (1 ≤ axes.length ∧ axes.length ≤ 4) then
    ([], .error "Axes must be a list of 1 to 4 axis names")
  else if axes.length ≠ stepsize.length then
    ([], .error "Expecting as many stepsize as axes")
  else if stepsize.any fun sz => (1 : ℚ) / 100 < sz then
    ([], .error "stepsize should be in meter")
  else
    ([.openConn], .ok ⟨axes.enum.filterMap fun p =>
      if p.2 = "" then none else some (p.2, p.1 + 1), stepsize⟩)

/-! ## Claim theorems about the driver layer -/

theorem applyInversionRel_mem {inverted : List String} {shift : List (String × ℚ)}
    {q : String × ℚ} (hq : q ∈ applyInversionRel inverted shift) :
    ∃ p ∈ shift, q.1 = p.1 ∧ |q.2| = |p.2| := by
  unfold applyInversionRel at hq
  obtain ⟨p, hp, he⟩ := List.mem_map.mp hq
  by_cases h : p.1 ∈ inverted
  · rw [if_pos h] at he
    exact ⟨p, hp, by rw [← he], by rw [← he]; exact abs_neg p.2⟩
  · rw [if_neg h] at he
    exact ⟨p, hp, by rw [he], by rw [he]⟩

/-- The drop loop of `moveRel` keeps exactly the entries at least one step
size in magnitude. -/
theorem dropSmall_eq (ss : List ℚ) (nta : List (String × ℕ)) (l : List (String × ℚ))
    (h : ∀ p ∈ l, ∃ aid, nta.lookup p.1 = some aid ∧ 1 ≤ aid ∧ aid - 1 < ss.length) :
    dropSmall ss nta l = some (l.filter fun p =>
      !decide (|p.2| < ss.getD (((nta.lookup p.1).getD 1) - 1) 0)) := by
  induction l with
  | nil => rfl
  | cons p rest ih =>
    obtain ⟨aid, hlk, h1, h2⟩ := h p (List.mem_cons_self p rest)
    have hrest := ih fun q hq => h q (List.mem_cons_of_mem _ hq)
    obtain ⟨an, v⟩ := p
    simp only at hlk
    have hg : ∃ x, ss.get? (aid - 1) = some x := by
      cases hgg : ss.get? (aid - 1) with
      | none =>
        have := List.get?_eq_none.mp hgg
        omega
      | some x => exact ⟨x, rfl⟩
    obtain ⟨x, hx⟩ := hg
    have hxd : ss.getD (aid - 1) 0 = x := by
      have hx2 := hx
      rw [List.get?_eq_getElem?] at hx2
      simp [List.getD, hx2]
    simp only [dropSmall, hlk, hx, hrest]
    simp only [List.filter_cons, hlk, Option.getD_some, hxd]
    by_cases hlt : |v| < x
    · simp [hlt]
    · simp [hlt]

/-- C3: every requested relative delta strictly smaller in magnitude than its
axis's step size is dropped from the request, and `moveRel` returns the
already-completed no-op `InstantaneousFuture` — submitting no work — exactly
when every requested delta drops; otherwise it submits precisely the deltas
that survived the filter. -/
theorem moveRel_drops_small (ss : List ℚ) (nta : List (String × ℕ))
    (inverted : List String) (shift : List (String × ℚ))
    (hres : ∀ p ∈ shift, ∃ aid, nta.lookup p.1 = some aid ∧ 1 ≤ aid ∧
      aid - 1 < ss.length) :
    (moveRel ss nta inverted shift = .ok .instantaneous ↔
      ∀ p ∈ shift, ∀ aid, nta.lookup p.1 = some aid → |p.2| < ss.getD (aid - 1) 0) ∧
    (∀ kept, moveRel ss nta inverted shift = .ok (.submitted kept) →
      kept = (applyInversionRel inverted shift).filter fun p =>
        !decide (|p.2| < ss.getD (((nta.lookup p.1).getD 1) - 1) 0)) := by
  have hres2 : ∀ q ∈ applyInversionRel inverted shift,
      ∃ aid, nta.lookup q.1 = some aid ∧ 1 ≤ aid ∧ aid - 1 < ss.length := by
    intro q hq
    obtain ⟨p, hp, hq1, _⟩ := applyInversionRel_mem hq
    rw [hq1]
    exact hres p hp
  have hchk : checkMoveRel nta shift = .ok () := by
    unfold checkMoveRel
    rw [if_pos]
    apply List.all_eq_true.mpr
    intro p hp
    obtain ⟨aid, hlk, _, _⟩ := hres p hp
    simp [hlk]
  simp only [moveRel, hchk, dropSmall_eq ss nta _ hres2]
  constructor
  · constructor
    · intro hinst p hp aid hlk
      by_cases hemp : ((applyInversionRel inverted shift).filter fun p =>
          !decide (|p.2| < ss.getD (((nta.lookup p.1).getD 1) - 1) 0)).isEmpty
      · have hall := List.filter_eq_nil_iff.mp (List.isEmpty_iff.mp hemp)
        set q : String × ℚ := if p.1 ∈ inverted then (p.1, -p.2) else p with hqdef
        have hqm : q ∈ applyInversionRel inverted shift := by
          unfold applyInversionRel
          exact List.mem_map.mpr ⟨p, hp, rfl⟩
        have := hall q hqm
        simp only [Bool.not_eq_true', decide_eq_false_iff_not, not_not] at this
        have hq1 : q.1 = p.1 := by
          rw [hqdef]
          by_cases hi : p.1 ∈ inverted <;> simp [hi]
        have hq2 : |q.2| = |p.2| := by
          rw [hqdef]
          by_cases hi : p.1 ∈ inverted <;> simp [hi, abs_neg]
        rw [hq1, hlk] at this
        simpa [hq2] using this
      · rw [if_neg hemp] at hinst
        exact absurd hinst (by simp)
    · intro hsmall
      rw [if_pos]
      apply List.isEmpty_iff.mpr
      apply List.filter_eq_nil_iff.mpr
      intro q hq
      obtain ⟨p, hp, hq1, hq2⟩ := applyInversionRel_mem hq
      obtain ⟨aid, hlk, _, _⟩ := hres p hp
      have := hsmall p hp aid hlk
      simp only [Bool.not_eq_true', decide_eq_false_iff_not, not_not, hq1, hlk,
        Option.getD_some, hq2]
      exact this
  · intro kept hk
    by_cases hemp : ((applyInversionRel inverted shift).filter fun p =>
        !decide (|p.2| < ss.getD (((nta.lookup p.1).getD 1) - 1) 0)).isEmpty
    · rw [if_pos hemp] at hk
      exact absurd hk (by simp)
    · rw [if_neg hemp] at hk
      simpa using hk.symm

theorem moveRel_drops_small_witness :
    moveRel [(1 : ℚ)] [("x", 1)] [] [("x", 1/2)] = .ok .instantaneous := by
  have hres : ∀ p ∈ [("x", (1 : ℚ)/2)], ∃ aid,
      List.lookup p.1 [("x", (1 : ℕ))] = some aid ∧ 1 ≤ aid ∧
      aid - 1 < [(1 : ℚ)].length := by
    intro p hp
    simp only [List.mem_singleton] at hp
    subst hp
    exact ⟨1, by decide, by decide, by decide⟩
  refine (moveRel_drops_small [(1 : ℚ)] [("x", 1)] [] [("x", 1/2)] hres).1.mpr ?_
  intro p hp aid hlk
  simp only [List.mem_singleton] at hp
  subst hp
  have hl : List.lookup "x" [("x", (1 : ℕ))] = some 1 := by decide
  rw [hl] at hlk
  have ha : aid = 1 := (Option.some.inj hlk).symm
  subst ha
  rw [abs_of_pos (by norm_num)]
  norm_num [List.getD]

/-- C6 counterexample: a step size of 0 — not strictly greater than 0, hence
rejected according to the claim — is accepted by `PM8742.__init__`, which
produces a controller handle and opens the device connection. -/
theorem init_accepts_nonpositive_stepsize :
    PM8742init ["x"] [0] = ([.openConn], .ok ⟨[("x", 1)], [0]⟩) := by
  norm_num [PM8742init, List.enum, List.enumFrom, List.filterMap]
  rw [if_neg (by decide)]

/-- C6 amended: construction validates only the upper sanity ceiling of the
step sizes: whenever some step size exceeds 10e-3 m the construction fails
synchronously before any device communication (no connection is opened and no
handle is produced); step sizes that are zero or negative are not rejected. -/
theorem init_stepsize_ceiling (axes : List String) (ss : List ℚ)
    (h : ∃ sz ∈ ss, (1 : ℚ) / 100 < sz) :
    (PM8742init axes ss).1 = [] ∧ ∃ e, (PM8742init axes ss).2 = .error e := by
  unfold PM8742init
  by_cases ha : 1 ≤ axes.length ∧ axes.length ≤ 4
  · rw [if_neg (not_not_intro ha)]
    by_cases hb : axes.length = ss.length
    · rw [if_neg (not_not_intro hb)]
      have hany : (ss.any fun sz => decide ((1 : ℚ) / 100 < sz)) = true := by
        obtain ⟨sz, hm, hs⟩ := h
        exact List.any_eq_true.mpr ⟨sz, hm, decide_eq_true hs⟩
      rw [if_pos hany]
      exact ⟨rfl, _, rfl⟩
    · rw [if_pos hb]
      exact ⟨rfl, _, rfl⟩
  · rw [if_pos ha]
    exact ⟨rfl, _, rfl⟩

theorem init_stepsize_ceiling_witness :
    (PM8742init ["x"] [1]).1 = [] ∧ ∃ e, (PM8742init ["x"] [1]).2 = .error e :=
  init_stepsize_ceiling ["x"] [1] ⟨1, by simp, by norm_num⟩

/-- C8 (code bug): `_openConnection` maps the `"fake"` sentinel to a
simulator-backed accesser and a colon-free address to that host on the default
telnet port 23, but an address of the form `"host:port"` raises `NameError`
(the code splits the unbound local `port` instead of `address`) rather than
connecting to that host and port. -/
theorem openConnection_behavior :
    openConnection "fake" = .accesser "fake" 23 ∧
    ipAccesserBackend "fake" 23 = .simulator ∧
    openConnection "192.168.1.5:4000" = .nameError ∧
    openConnection "192.168.1.5" = .accesser "192.168.1.5" 23 ∧
    ipAccesserBackend "192.168.1.5" 23 = .network "192.168.1.5" 23 :=
  ⟨rfl, rfl, rfl, rfl, rfl⟩

/-- C9: `moveAbs` with an empty target map returns the already-completed no-op
`InstantaneousFuture` immediately — before `_checkMoveAbs` runs (the result
holds for every validator, even an always-failing one) and without submitting
any work to the executor. -/
theorem moveAbs_empty_instantaneous
    (check : List (String × ℚ) → Except String Unit)
    (inv : List (String × ℚ) → List (String × ℚ)) :
    moveAbs check inv [] = .ok .instantaneous := rfl

/-! ## Trace model of a move (PM8742._doMoveRel / _waitEndMove)

The wall clock, the per-axis `IsMoving` answers and the stop flag are
abstracted into an oracle giving, for each loop iteration, the value of
`future._must_stop.is_set()`, the outcome of the polling pass (either the
axes that report not-moving, or an I/O error raised by `IsMoving`), and
whether the 0.1 s refresh deadline `time.time() - last_upd > 0.1` fired.
The trace records the observable actions: issued commands, position
refreshes (`_updatePosition`, with its axis filter), and the moving lock. -/

/-- Observable action of the move orchestration. -/
inductive DriverAction
  | moveCmd (axis : ℕ) (steps : ℤ)
  | stopCmd (axis : ℕ)
  | updPos (axes : Option (List ℕ))
  | acquireLock
  | releaseLock
deriving DecidableEq

/-- How `_waitEndMove` exits: normal return, `CancelledError`, an error from
inside the wait loop, or (an artifact of the fuelled embedding) still looping. -/
inductive WaitExit
  | completed
  | cancelled
  | errored
  | fuelOut
deriving DecidableEq

/-- Environment of one iteration of the wait loop. -/
structure PollRound where
  mustStop : Bool
  poll : Except Unit (List ℕ)
  timeTrig : Bool

/-- Python 2's `round` (half away from zero), used by `int(round(...))` for
the step conversion. -/
def pyRound (q : ℚ) : ℤ := if 0 ≤ q then ⌊q + 1/2⌋ else ⌈q - 1/2⌉

/-- Embedding of the `while not future._must_stop.is_set()` loop of
`_waitEndMove`: check the stop flag; poll the moving axes and discard the
stopped ones; return when none is left; refresh the positions of the
previously-moving axes when the deadline fired or the moving set shrank.
On the cancel path, stop every still-moving axis and raise `CancelledError`. -/
def waitLoop (oracle : ℕ → PollRound) (fuel : ℕ) (i : ℕ)
    (moving lastAxes : List ℕ) : WaitExit × List DriverAction :=
  match fuel with
  | 0 => (.fuelOut, [])
  | fuel + 1 =>
    let r := oracle i
    if r.mustStop then (.cancelled, moving.map DriverAction.stopCmd)
    else
      match r.poll with
      | .error _ => (.errored, [])
      | .ok stopped =>
        let moving2 := moving.filter fun a => !stopped.contains a
        if moving2.isEmpty then (.completed, [])
        else
          let upd := r.timeTrig || !(lastAxes == moving2)
          let tr1 : List DriverAction := if upd then [.updPos (some lastAxes)] else []
          let last2 := if upd then moving2 else lastAxes
          let er := waitLoop oracle fuel (i + 1) moving2 last2
          (er.1, tr1 ++ er.2)

/-- The `PR` move commands issued by `_doMoveRel` before waiting: one per
axis, with the delta converted to steps by `int(round(v / stepsize))`. Axis
names are assumed resolvable (`_checkMoveRel` validated them upstream). -/
def moveCmdsOf (stepsize : List ℚ) (nta : List (String × ℕ))
    (pos : List (String × ℚ)) : List DriverAction :=
  pos.filterMap fun p => (nta.lookup p.1).map fun aid =>
    DriverAction.moveCmd aid (pyRound (p.2 / stepsize.getD (aid - 1) 0))

/-- Embedding of `_waitEndMove`: the wait loop wrapped in
`try ... finally self._updatePosition()`, so every genuine exit — normal,
cancelled or errored, but not the fuel artifact, which corresponds to the
loop still running — appends one full-axis position refresh. -/
def waitEndMove (oracle : ℕ → PollRound) (fuel : ℕ) (axes : List ℕ) :
    WaitExit × List DriverAction :=
  match waitLoop oracle fuel 0 axes axes with
  | (.fuelOut, tr) => (.fuelOut, tr)
  | (e, tr) => (e, tr ++ [.updPos none])

/-- Embedding of `_doMoveRel`: under `with future._moving_lock`, issue the
per-axis move commands, run `_waitEndMove`, and release the lock when the
`with` block exits (on every exit path, raising or not). -/
def doMoveRel (oracle : ℕ → PollRound) (fuel : ℕ) (stepsize : List ℚ)
    (nta : List (String × ℕ)) (pos : List (String × ℚ)) :
    WaitExit × List DriverAction :=
  match waitEndMove oracle fuel (pos.filterMap fun p => nta.lookup p.1) with
  | (.fuelOut, tr) =>
    (.fuelOut, .acquireLock :: (moveCmdsOf stepsize nta pos ++ tr))
  | (e, tr) =>
    (e, .acquireLock :: (moveCmdsOf stepsize nta pos ++ tr ++ [.releaseLock]))

/-- Every genuine exit of `_waitEndMove` ends with a full position refresh. -/
theorem waitEndMove_exit (oracle : ℕ → PollRound) (fuel : ℕ) (axes : List ℕ)
    (h : (waitEndMove oracle fuel axes).1 ≠ .fuelOut) :
    ∃ pre, (waitEndMove oracle fuel axes).2 = pre ++ [DriverAction.updPos none] := by
  unfold waitEndMove at *
  cases hw : waitLoop oracle fuel 0 axes axes with
  | mk e tr =>
    rw [hw] at h
    cases e
    · exact ⟨tr, rfl⟩
    · exact ⟨tr, rfl⟩
    · exact ⟨tr, rfl⟩
    · exact absurd rfl h

/-- C2: on every terminating exit path of a relative move — normal
completion, cancellation after the stop flag is observed, or an error raised
inside the wait loop — the last two actions of the move are a full position
refresh of all axes (`_updatePosition` with no axis filter) followed by the
release of the moving lock, for every oracle (i.e. every pattern of axis
completions, stop requests, refresh deadlines and poll errors). -/
theorem move_exit_full_refresh (oracle : ℕ → PollRound) (fuel : ℕ)
    (stepsize : List ℚ) (nta : List (String × ℕ)) (pos : List (String × ℚ))
    (hexit : (doMoveRel oracle fuel stepsize nta pos).1 ≠ .fuelOut) :
    ∃ pre, (doMoveRel oracle fuel stepsize nta pos).2 =
      pre ++ [DriverAction.updPos none, DriverAction.releaseLock] := by
  have hwx : (waitEndMove oracle fuel (pos.filterMap fun p => nta.lookup p.1)).1 ≠
      WaitExit.fuelOut := by
    intro hfo
    apply hexit
    unfold doMoveRel
    cases hw : waitEndMove oracle fuel (pos.filterMap fun p => nta.lookup p.1) with
    | mk e tr =>
      rw [hw] at hfo
      simp only at hfo
      subst hfo
      rfl
  obtain ⟨pre, hpre⟩ := waitEndMove_exit oracle fuel _ hwx
  unfold doMoveRel
  cases hw : waitEndMove oracle fuel (pos.filterMap fun p => nta.lookup p.1) with
  | mk e tr =>
    rw [hw] at hwx hpre
    simp only at hwx hpre
    cases e
    · refine ⟨DriverAction.acquireLock :: (moveCmdsOf stepsize nta pos ++ pre), ?_⟩
      simp [hpre]
    · refine ⟨DriverAction.acquireLock :: (moveCmdsOf stepsize nta pos ++ pre), ?_⟩
      simp [hpre]
    · refine ⟨DriverAction.acquireLock :: (moveCmdsOf stepsize nta pos ++ pre), ?_⟩
      simp [hpre]
    · exact absurd rfl hwx

theorem move_exit_full_refresh_witness :
    (doMoveRel (fun _ => ⟨false, .ok [1], false⟩) 2 [1] [("x", 1)]
      [("x", (1 : ℚ))]).1 ≠ WaitExit.fuelOut ∧
    ∃ pre, (doMoveRel (fun _ => ⟨false, .ok [1], false⟩) 2 [1] [("x", 1)]
      [("x", (1 : ℚ))]).2 =
        pre ++ [DriverAction.updPos none, DriverAction.releaseLock] :=
  ⟨by decide,
   move_exit_full_refresh (fun _ => ⟨false, .ok [1], false⟩) 2 [1] [("x", 1)]
     [("x", (1 : ℚ))] (by decide)⟩

/-! ## Interleaving model of cancellation (PM8742._cancelCurrentMove)

Two threads act on a shared configuration: the executor running
`_doMoveRel`/`_waitEndMove` (acquire the moving lock, poll with a stop-flag
check at the top of each iteration, set `_was_stopped` and raise on the
cancel path, release the lock, then let the executor framework record the
terminal state) and a canceller running `CancellableFuture.cancel` →
`_cancelCurrentMove` (set `_must_stop`, take the moving lock, return
`_was_stopped`). A schedule is the interleaving: `true` steps the executor,
`false` the canceller. The poll oracle says whether all axes report stopped
at a given iteration. -/

/-- Task state, as the spec's terminal-state model: Running until the
executing side finishes, then Completed or Cancelled. -/
inductive TState
  | running
  | completed
  | cancelled
deriving DecidableEq

/-- Executor program counter: about to take the moving lock; at the top of
the wait loop; finalizing with outcome `ok` (`finish` still holds the lock,
`setstate` has released it and records the terminal state); done. -/
inductive EPc
  | start
  | loop
  | finish (ok : Bool)
  | setstate (ok : Bool)
  | done
deriving DecidableEq

/-- Canceller program counter through `cancel` / `_cancelCurrentMove`. -/
inductive CPc
  | start
  | setflag
  | acquire
  | readflag
  | done
deriving DecidableEq

/-- Shared configuration: the two flags of `_createFuture`
(`_must_stop`, `_was_stopped`), the moving lock, the task's state, the poll
iteration counter, both program counters and the canceller's return value. -/
structure Conf where
  mustStop : Bool
  wasStopped : Bool
  lockHeld : Bool
  task : TState
  iter : ℕ
  epc : EPc
  cpc : CPc
  res : Option Bool
deriving DecidableEq

/-- One executor step. `start`/`loop`/`finish` embed `_doMoveRel` +
`_waitEndMove` (lock acquisition; the `while not future._must_stop.is_set()`
check, with the oracle deciding whether all axes report stopped this
iteration; `future._was_stopped = True` on the cancel path; lock release on
`with`-exit). The `setstate` step is modelled from the spec: the executor
framework (odemis.model, not in the sources) records the terminal state —
Completed on normal return, Cancelled when `CancelledError` was raised —
after the work function returns. -/
def execStep (oracle : ℕ → Bool) (c : Conf) : Conf :=
  match c.epc with
  | .start => if c.lockHeld then c else { c with lockHeld := true, epc := .loop }
  | .loop =>
    if c.mustStop then { c with wasStopped := true, epc := .finish false }
    else if oracle c.iter then { c with epc := .finish true }
    else { c with iter := c.iter + 1 }
  | .finish ok => { c with lockHeld := false, epc := .setstate ok }
  | .setstate ok =>
    { c with task := if ok then .completed else .cancelled, epc := .done }
  | .done => c

/-- Modelled from the spec: the `.start` case is `CancellableFuture.cancel`'s
terminal-state check (odemis.model._futures, not in the sources) — cancel on
a finished task is a no-op returning false. The remaining cases embed
`_cancelCurrentMove` from the source: set `future._must_stop`, take
`future._moving_lock`, and return `future._was_stopped`. -/
def cancelStep (c : Conf) : Conf :=
  match c.cpc with
  | .start =>
    if c.task = .running then { c with cpc := .setflag }
    else { c with res := some false, cpc := .done }
  | .setflag => { c with mustStop := true, cpc := .acquire }
  | .acquire => if c.lockHeld then c else { c with lockHeld := true, cpc := .readflag }
  | .readflag => { c with res := some c.wasStopped, lockHeld := false, cpc := .done }
  | .done => c

/-- Run a schedule: `true` steps the executor, `false` the canceller. A
thread blocked on the lock does not advance when scheduled. -/
def runSched (oracle : ℕ → Bool) (sched : List Bool) (c : Conf) : Conf :=
  match sched with
  | [] => c
  | b :: rest => runSched oracle rest (if b then execStep oracle c else cancelStep c)

/-- A move task that just started Running, with a fresh `_createFuture`
future (both flags clear, lock free) and the canceller about to be invoked. -/
def initRunning : Conf :=
  { mustStop := false, wasStopped := false, lockHeld := false, task := .running,
    iter := 0, epc := .start, cpc := .start, res := none }

/-- A task that already terminated Completed (executor done, lock released,
`_was_stopped` never set), with the canceller about to be invoked. -/
def completedConf : Conf :=
  { mustStop := false, wasStopped := false, lockHeld := false, task := .completed,
    iter := 0, epc := .done, cpc := .start, res := none }

/-- Inductive invariant for runs from `initRunning`: a true cancel result
certifies `_was_stopped`, which is set only on the executor's cancel path,
and a Completed task implies the executor finished without it. -/
def Jinv (c : Conf) : Prop :=
  (c.res = some true → c.wasStopped = true) ∧
  (c.wasStopped = true →
    (c.epc = .finish false ∨ c.epc = .setstate false ∨
      (c.epc = .done ∧ c.task = .cancelled))) ∧
  (c.task = .completed → c.epc = .done ∧ c.wasStopped = false)

/-- Inductive invariant for runs from `completedConf`: nothing can change the
terminal state, and the canceller can only return false. -/
def Kinv (c : Conf) : Prop :=
  c.task = .completed ∧ c.epc = .done ∧ c.wasStopped = false ∧
  ((c.cpc = .start ∧ c.res = none) ∨ (c.cpc = .done ∧ c.res = some false))

theorem Jinv_exec (oracle : ℕ → Bool) (c : Conf) (h : Jinv c) :
    Jinv (execStep oracle c) := by
  obtain ⟨ms, ws, lk, tk, it, ep, cp, rs⟩ := c
  obtain ⟨h1, h2, h3⟩ := h
  simp only [Jinv] at *
  cases ep
  case start => cases lk <;> simp_all [execStep]
  case loop => by_cases ho : oracle it <;> cases ms <;> simp_all [execStep]
  case finish ok => cases ok <;> simp_all [execStep]
  case setstate ok => cases ok <;> simp_all [execStep]
  case done => simp_all [execStep]

theorem Jinv_cancel (c : Conf) (h : Jinv c) : Jinv (cancelStep c) := by
  obtain ⟨ms, ws, lk, tk, it, ep, cp, rs⟩ := c
  obtain ⟨h1, h2, h3⟩ := h
  simp only [Jinv] at *
  cases cp
  case start => cases tk <;> simp_all [cancelStep]
  case setflag => simp_all [cancelStep]
  case acquire => cases lk <;> simp_all [cancelStep]
  case readflag => cases ws <;> simp_all [cancelStep]
  case done => simp_all [cancelStep]

theorem Jinv_run (oracle : ℕ → Bool) (sched : List Bool) (c : Conf) (h : Jinv c) :
    Jinv (runSched oracle sched c) := by
  induction sched generalizing c with
  | nil => exact h
  | cons b rest ih =>
    cases b
    · exact ih _ (Jinv_cancel _ h)
    · exact ih _ (Jinv_exec oracle _ h)

theorem Kinv_exec (oracle : ℕ → Bool) (c : Conf) (h : Kinv c) :
    Kinv (execStep oracle c) := by
  obtain ⟨ms, ws, lk, tk, it, ep, cp, rs⟩ := c
  obtain ⟨h1, h2, h3, h4⟩ := h
  simp only at h1 h2 h3
  subst h1 h2 h3
  simp_all [Kinv, execStep]

theorem Kinv_cancel (c : Conf) (h : Kinv c) : Kinv (cancelStep c) := by
  obtain ⟨ms, ws, lk, tk, it, ep, cp, rs⟩ := c
  obtain ⟨h1, h2, h3, h4⟩ := h
  simp only at h1 h2 h3
  subst h1 h2 h3
  rcases h4 with ⟨hc, hr⟩ | ⟨hc, hr⟩ <;> simp only at hc hr <;> subst hc hr <;>
    simp_all [Kinv, cancelStep]

theorem Kinv_run (oracle : ℕ → Bool) (sched : List Bool) (c : Conf) (h : Kinv c) :
    Kinv (runSched oracle sched c) := by
  induction sched generalizing c with
  | nil => exact h
  | cons b rest ih =>
    cases b
    · exact ih _ (Kinv_cancel _ h)
    · exact ih _ (Kinv_exec oracle _ h)

/-- C1 counterexample: an interleaving in which the canceller is invoked
while the task is still Running (after three steps the task is Running and
the canceller has passed its Running check), yet cancel returns false and
the task terminates Completed: the executor had already passed its final
stop-flag check. This refutes "cancel while Running returns true and the
task terminates Cancelled". -/
theorem cancel_running_may_return_false :
    (runSched (fun _ => true) [true, true, false] initRunning).task = .running ∧
    (runSched (fun _ => true) [true, true, false] initRunning).cpc = .setflag ∧
    (runSched (fun _ => true) [true, true, false, false, true, false, false, true]
      initRunning).res = some false ∧
    (runSched (fun _ => true) [true, true, false, false, true, false, false, true]
      initRunning).task = .completed := by
  decide

/-- C1 amended: in every interleaving, cancel invoked strictly after the task
reached Completed returns false and the task remains Completed; and from a
Running task, whenever cancel returns true (the `_was_stopped` value read
under the moving lock) the task never terminates Completed — once the
executor finishes it terminates Cancelled. Cancel-while-Running returning
true is not guaranteed (see the counterexample). -/
theorem cancel_outcome_amended :
    (∀ (oracle : ℕ → Bool) (sched : List Bool),
      (runSched oracle sched completedConf).task = .completed ∧
      ((runSched oracle sched completedConf).cpc = .done →
        (runSched oracle sched completedConf).res = some false)) ∧
    (∀ (oracle : ℕ → Bool) (sched : List Bool),
      (runSched oracle sched initRunning).res = some true →
      (runSched oracle sched initRunning).task ≠ .completed ∧
      ((runSched oracle sched initRunning).epc = .done →
        (runSched oracle sched initRunning).task = .cancelled)) := by
  constructor
  · intro oracle sched
    have hK := Kinv_run oracle sched completedConf
      ⟨rfl, rfl, rfl, Or.inl ⟨rfl, rfl⟩⟩
    obtain ⟨ht, he, hw, hd⟩ := hK
    refine ⟨ht, fun hcpc => ?_⟩
    rcases hd with ⟨hc, hr⟩ | ⟨hc, hr⟩
    · rw [hcpc] at hc
      exact absurd hc (by simp)
    · exact hr
  · intro oracle sched hres
    have hJ := Jinv_run oracle sched initRunning
      (by refine ⟨?_, ?_, ?_⟩ <;> intro hh <;> simp [initRunning] at hh)
    obtain ⟨h1, h2, h3⟩ := hJ
    have hws := h1 hres
    have hepc := h2 hws
    constructor
    · intro hcomp
      have := (h3 hcomp).2
      rw [this] at hws
      exact absurd hws (by simp)
    · intro hdone
      rcases hepc with h | h | ⟨hd, hc⟩
      · rw [hdone] at h
        exact absurd h (by simp)
      · rw [hdone] at h
        exact absurd h (by simp)
      · exact hc

theorem cancel_outcome_amended_witness :
    (runSched (fun _ => true) [false] completedConf).task = .completed ∧
    (runSched (fun _ => true) [false] completedConf).res = some false ∧
    (runSched (fun _ => true) [false, false, true, true, true, false, false, true]
      initRunning).task ≠ .completed ∧
    (runSched (fun _ => true) [false, false, true, true, true, false, false, true]
      initRunning).task = .cancelled :=
  ⟨(cancel_outcome_amended.1 (fun _ => true) [false]).1,
   (cancel_outcome_amended.1 (fun _ => true) [false]).2 (by decide),
   (cancel_outcome_amended.2 (fun _ => true)
     [false, false, true, true, true, false, false, true] (by decide)).1,
   (cancel_outcome_amended.2 (fun _ => true)
     [false, false, true, true, true, false, false, true] (by decide)).2 (by decide)⟩

end Nfpm
